import Mathlib

/-!
# DanmakuRobot-Yurine: QR-code login helper (`tools/login_in.go`)

A shallow embedding of the login helper and machine-checked statements about it.

* Go slices are `Slice α`: either the nil slice or a (possibly empty) list of elements,
  because `encoding/json` renders the two differently.
* A Go result pair `(*T, error)` is a pair of `Option`s; errors are their message text.
* The network, the JSON decoder and the clock are explicit inputs: `Get url i` is the outcome
  of the `i`-th request to `url` together with the time that request took; a request
  advances the clock by that time and `time.Sleep(d)` advances it by exactly `d`.
* The poll loop need not terminate, so it is run with a bound on the number of passes.
* Functions of the Go standard library are modelled after the library's source
  (`net/http`, `net/textproto`, `strings`, `encoding/json`); they are marked as such.
* Writes to standard output (`fmt.Printf`, `fmt.Println`) do not influence control flow or
  any returned value and are left out.
-/

namespace DanmakuRobot

/-! ## Go slices -/

/-- Go slice value: `nil`, or a slice backed by the listed elements. -/
inductive Slice (α : Type) where
  | nil : Slice α
  | mk (elems : List α) : Slice α
  deriving Repr, DecidableEq

namespace Slice

/-- Elements of a slice, in order (`range` over it). -/
def toList {α : Type} : Slice α → List α
  | .nil => []
  | .mk xs => xs

/-- Go `append(s, xs...)`: appending nothing to the nil slice leaves it nil. -/
def append {α : Type} (s : Slice α) (xs : List α) : Slice α :=
  match s, xs with
  | .nil, [] => .nil
  | s, xs => .mk (s.toList ++ xs)

/-- Go `len(s)`. -/
def len {α : Type} (s : Slice α) : Nat := s.toList.length

end Slice

/-! ## Data model (`model/qrcode.go`, `model/polling_msg.go`, `net/http`) -/

/-- Go `time.Second`; a `time.Duration` is a natural number of nanoseconds. -/
def Second : Nat := 1000000000

/-- Go `time.Time`, as seconds counted from the zero `Time`; the zero value is `0`. -/
abbrev Time := Int

/-- The fields of `http.Cookie` that this program reads or that `http.ParseCookie` sets. -/
structure Cookie where
  Name : String := ""
  Value : String := ""
  Quoted : Bool := false
  Path : String := ""
  Domain : String := ""
  Expires : Time := 0
  Secure : Bool := false
  HttpOnly : Bool := false
  deriving Repr, DecidableEq

/-- Go `http.Header`: canonical header key to its values, in arrival order. -/
abbrev Header := List (String × List String)

/-- Data object of `model.QrcodeResponse`. -/
structure QrcodeData where
  Url : String := ""
  QrcodeKey : String := ""
  deriving Repr, DecidableEq

/-- Go `model.QrcodeResponse`. -/
structure QrcodeResponse where
  Code : Int := 0
  Message : String := ""
  Ttl : Int := 0
  Data : QrcodeData := {}
  deriving Repr, DecidableEq

/-- Go `model.LoginInfo`. -/
structure LoginInfo where
  Url : String := ""
  RefreshToken : String := ""
  Timestamp : Int := 0
  Code : Int := 0
  Message : String := ""
  Cookies : Slice Cookie := .nil
  deriving Repr, DecidableEq

/-- The anonymous struct `statusResp` declared inside the poll loop. -/
structure StatusResp where
  Code : Int := 0
  Message : String := ""
  Data : LoginInfo := {}
  deriving Repr, DecidableEq

/-- Response of an HTTP request after `io.ReadAll`: status, headers, the bytes read and the
read error, if any. -/
structure Response where
  StatusCode : Int := 200
  Header : Header := []
  Body : String := ""
  ReadErr : Option String := none
  deriving Repr, DecidableEq

/-- Outcome of `http.Get` / `client.Get`: a transport error or a response. -/
inductive GetResult where
  | err (e : String) : GetResult
  | ok (resp : Response) : GetResult
  deriving Repr, DecidableEq

/-- One request as the program sees it: the wall-clock time it took and its outcome. -/
structure Exchange where
  elapsed : Nat := 0
  result : GetResult
  deriving Repr, DecidableEq

/-- Go result pair `(*T, error)`. -/
abbrev GoResult (α : Type) := Option α × Option String

/-! ## Constants (`tools/login_in.go` lines 16-19) -/

/-- Go `PollInterval = 2 * time.Second`. -/
def PollInterval : Nat := 2 * Second

/-- Go `PollTimeout = 180 * time.Second`. -/
def PollTimeout : Nat := 180 * Second

/-! ## Standard library: `net/textproto`, `strings`, `net/http` cookie parsing -/

/-- Go `validHeaderFieldByte` / `httpguts.IsTokenRune`: the RFC 7230 token characters. -/
def isTokenChar (c : Char) : Bool :=
  c.isAlphanum || "!#$%&*+-.^_|~".toList.contains c || c.toNat = 39 || c.toNat = 96

/-- Upper-cases the first letter and every letter after a hyphen, lower-cases the others. -/
def canonicalChars : Bool → List Char → List Char
  | _, [] => []
  | upper, c :: cs =>
    (if upper then c.toUpper else c.toLower) :: canonicalChars (c = '-') cs

/-- Go `textproto.CanonicalMIMEHeaderKey`: a key holding a byte that is no token character is
returned unchanged. -/
def CanonicalMIMEHeaderKey (s : String) : String :=
  if s.toList.all isTokenChar then String.mk (canonicalChars true s.toList) else s

/-- Go `http.Header.Values`: all values stored under the canonical form of `key`. -/
def Header.Values (h : Header) (key : String) : List String :=
  match h.lookup (CanonicalMIMEHeaderKey key) with
  | some vs => vs
  | none => []

/-- Go `isASCIISpace` of `net/textproto`: space, tab, line feed, carriage return. -/
def isASCIISpace (b : Char) : Bool :=
  b = ' ' || b = '\t' || b = '\n' || b = '\r'

/-- Drops leading ASCII space characters. -/
def trimLeft : List Char → List Char
  | [] => []
  | c :: cs => if isASCIISpace c then trimLeft cs else c :: cs

/-- Go `textproto.TrimString`: strips leading and trailing ASCII space characters (space,
tab, line feed, carriage return). -/
def TrimString (s : List Char) : List Char :=
  (trimLeft (trimLeft s).reverse).reverse

/-- Go `strings.Split(s, ";")`. -/
def splitSemicolon : List Char → List (List Char)
  | [] => [[]]
  | c :: cs =>
    if c = ';' then [] :: splitSemicolon cs
    else
      match splitSemicolon cs with
      | p :: ps => (c :: p) :: ps
      | [] => [[c]]

/-- Go `strings.Cut(s, "=")`: the text before and after the first `=`, if there is one. -/
def cutEquals : List Char → Option (List Char × List Char)
  | [] => none
  | c :: cs =>
    if c = '=' then some ([], cs)
    else
      match cutEquals cs with
      | some (before, after) => some (c :: before, after)
      | none => none

/-- Go `isCookieNameValid`: non-empty and made of token characters only. -/
def isCookieNameValid (raw : List Char) : Bool :=
  !raw.isEmpty && raw.all isTokenChar

/-- Go `validCookieValueByte`. -/
def validCookieValueByte (b : Char) : Bool :=
  decide (0x20 ≤ b.toNat) && decide (b.toNat < 0x7f) && b != '"' && b != ';' && b != '\\'

/-- Go `parseCookieValue(raw, true)`: strips one pair of enclosing double quotes, then
requires every byte to be a valid cookie value byte. Returns the value and the quoted flag. -/
def parseCookieValue (raw : List Char) : Option (List Char × Bool) :=
  let stripped : List Char × Bool :=
    if 1 < raw.length ∧ raw.head? = some '"' ∧ raw.getLast? = some '"'
    then ((raw.drop 1).dropLast, true) else (raw, false)
  if stripped.1.all validCookieValueByte then some stripped else none

/-- Loop of `http.ParseCookie` over the `;`-separated parts: every part must be a
`name=value` pair with a valid name and value, and every part becomes a cookie. -/
def parseCookieParts : List (List Char) → Except String (List Cookie)
  | [] => .ok []
  | s :: rest =>
    match cutEquals (TrimString s) with
    | none => .error "http: '=' not found in cookie"
    | some (name, value) =>
      if !isCookieNameValid name then .error "http: invalid cookie name"
      else
        match parseCookieValue value with
        | none => .error "http: invalid cookie value"
        | some (v, quoted) =>
          match parseCookieParts rest with
          | .error e => .error e
          | .ok cs => .ok ({ Name := String.mk name, Value := String.mk v, Quoted := quoted } :: cs)

/-- Go `http.ParseCookie` (net/http, go1.23): parses the value of a `Cookie` request header
and returns every `name=value` pair in it as a cookie; only `Name`, `Value` and `Quoted` are
set. -/
def ParseCookie (line : String) : Except String (List Cookie) :=
  let parts := splitSemicolon (TrimString line.toList)
  if parts = [[]] then .error "http: blank cookie" else parseCookieParts parts

/-! ## `parseResponseCookies` (`tools/login_in.go` lines 108-122) -/

/-- Loop body of `parseResponseCookies`, folded over the header values: a value that fails
to parse is skipped, the cookies of a value that parses are appended. -/
def parseResponseCookiesLoop (parse : String → Except String (List Cookie)) :
    List String → Slice Cookie → Slice Cookie
  | [], parsedCookies => parsedCookies
  | c :: cookies, parsedCookies =>
    match parse c with
    | .error _ => parseResponseCookiesLoop parse cookies parsedCookies
    | .ok cookie => parseResponseCookiesLoop parse cookies (parsedCookies.append cookie)

/-- Go `parseResponseCookies`, with the cookie-line parser it calls as a parameter. -/
def parseResponseCookiesWith (parse : String → Except String (List Cookie))
    (header : Header) : Slice Cookie :=
  parseResponseCookiesLoop parse (header.Values "set-cookie") .nil

/-- Go `parseResponseCookies`: the parser is `http.ParseCookie`. -/
def parseResponseCookies (header : Header) : Slice Cookie :=
  parseResponseCookiesWith ParseCookie header

/-! ## The outside world -/

/-- Everything the program obtains from outside: `Get url i` is the `i`-th request sent to
`url` (its duration and outcome); the two decoders are `json.Unmarshal` at the two struct
types the program decodes into, each starting from the zero value. -/
structure World where
  Get : String → Nat → Exchange
  unmarshalQrcode : String → Except String QrcodeResponse
  unmarshalStatus : String → Except String StatusResp

/-! ## `GetLoginURL` (`tools/login_in.go` lines 25-51) -/

/-- Endpoint of the login challenge. -/
def generateURL : String := "https://passport.bilibili.com/x/passport-login/web/qrcode/generate"

/-- Go `GetLoginURL`. -/
def GetLoginURL (w : World) : GoResult QrcodeResponse :=
  match (w.Get generateURL 0).result with
  | .err e => (none, some ("API请求失败: " ++ e))
  | .ok resp =>
    if resp.StatusCode ≠ 200 then
      (none, some ("非200状态码: " ++ toString resp.StatusCode))
    else
      match resp.ReadErr with
      | some e => (none, some ("响应体读取失败: " ++ e))
      | none =>
        match w.unmarshalQrcode resp.Body with
        | .error e => (none, some ("JSON解析失败: " ++ e))
        | .ok qrResp =>
          if qrResp.Code ≠ 0 then
            (none, some ("API返回错误: [" ++ toString qrResp.Code ++ "]" ++ qrResp.Message))
          else
            (some qrResp, none)

/-! ## `PollLoginStatus` (`tools/login_in.go` lines 54-106) -/

/-- What the poll loop does that is visible from outside. -/
inductive Event where
  | request : Event
  | sleep (d : Nat) : Event
  deriving Repr, DecidableEq

/-- State of the poll loop: `now` is `time.Since(startTime)`, `requests` the number of
requests issued so far, `log` the requests and sleeps in the order they happened. -/
structure PollState where
  now : Nat := 0
  requests : Nat := 0
  log : List Event := []
  deriving Repr, DecidableEq

/-- Outcome of one pass through the loop: the function returns, or the loop goes round. -/
inductive Iter where
  | done (result : GoResult LoginInfo) (st : PollState) : Iter
  | next (st : PollState) : Iter
  deriving Repr, DecidableEq

/-- Address polled for the key `qrcodeKey`. -/
def pollURL (qrcodeKey : String) : String :=
  "https://passport.bilibili.com/x/passport-login/web/qrcode/poll?qrcode_key=" ++ qrcodeKey

/-- State after `time.Sleep(PollInterval)`. -/
def sleepInterval (st : PollState) : PollState :=
  { st with now := st.now + PollInterval, log := st.log ++ [Event.sleep PollInterval] }

/-- One pass through the `for` loop of `PollLoginStatus`: the loop condition, the request,
cookie extraction, decoding, the `switch`, and the sleep. -/
def pollStep (w : World) (url : String) (st : PollState) : Iter :=
  if st.now < PollTimeout then
    let x := w.Get url st.requests
    let st1 : PollState :=
      { now := st.now + x.elapsed, requests := st.requests + 1, log := st.log ++ [Event.request] }
    match x.result with
    | .err e => .done (none, some ("轮询请求失败: " ++ e)) st1
    | .ok resp =>
      let cookies := parseResponseCookies resp.Header
      match w.unmarshalStatus resp.Body with
      | .error _ => .next st1
      | .ok statusResp =>
        let data : LoginInfo := { statusResp.Data with Cookies := cookies }
        if statusResp.Code = 0 then
          if data.Code = 0 then .done (some data, none) st1
          else .next (sleepInterval st1)
        else if statusResp.Code = 86038 then
          .done (none, some "二维码已过期") st1
        else
          .next (sleepInterval st1)
  else
    .done (none, some "轮询超时") st

/-- The `for` loop of `PollLoginStatus`, run for at most `fuel` passes; `none` when the loop
is still running after `fuel` passes. -/
def pollLoop (w : World) (url : String) : Nat → PollState → Option (GoResult LoginInfo × PollState)
  | 0, _ => none
  | fuel + 1, st =>
    match pollStep w url st with
    | .done result st1 => some (result, st1)
    | .next st1 => pollLoop w url fuel st1

/-- Go `PollLoginStatus`: the result pair together with the final loop state. -/
def PollLoginStatus (w : World) (qrcodeKey : String) (fuel : Nat) :
    Option (GoResult LoginInfo × PollState) :=
  pollLoop w (pollURL qrcodeKey) fuel {}

/-! ## `saveCookiesToFile` (`tools/login_in.go` lines 161-192) -/

/-- The local struct `Cookie` declared inside `saveCookiesToFile`. -/
structure SavedCookie where
  Name : String
  Value : String
  Domain : String
  Path : String
  Expires : Time
  Secure : Bool
  HttpOnly : Bool
  deriving Repr, DecidableEq

/-- Files on disk, by name, and whether a name can be written. -/
structure FileSystem where
  files : List (String × String) := []
  writable : String → Bool := fun _ => true

/-- Contents of a file, if it exists. -/
def FileSystem.read (fs : FileSystem) (name : String) : Option String :=
  fs.files.lookup name

/-- Go `os.WriteFile`: replaces the contents of the file, or fails. -/
def WriteFile (fs : FileSystem) (name data : String) : Option String × FileSystem :=
  if fs.writable name then
    (none, { fs with files := (name, data) :: fs.files.filter (fun f => f.1 != name) })
  else
    (some ("open " ++ name ++ ": permission denied"), fs)

/-- Go `json.MarshalIndent(v, "", "  ")` at a slice type: the nil slice is rendered `null`,
an empty slice `[]`, any other slice one element per line. `encode` renders one element,
already indented, and may fail. -/
def MarshalIndent (encode : SavedCookie → Except String String) :
    Slice SavedCookie → Except String String
  | .nil => .ok "null"
  | .mk [] => .ok "[]"
  | .mk (x :: xs) =>
    match (x :: xs).mapM encode with
    | .error e => .error e
    | .ok rendered => .ok ("[\n" ++ ",\n".intercalate (rendered.map (fun r => "  " ++ r)) ++ "\n]")

/-- The conversion loop of `saveCookiesToFile`. -/
def saveCookiesLoop : List Cookie → Slice SavedCookie → Slice SavedCookie
  | [], saveCookies => saveCookies
  | c :: cookies, saveCookies =>
    saveCookiesLoop cookies (saveCookies.append [{
      Name := c.Name, Value := c.Value, Domain := c.Domain, Path := c.Path,
      Expires := c.Expires, Secure := c.Secure, HttpOnly := c.HttpOnly }])

/-- Go `saveCookiesToFile`: the returned error and the file system afterwards. -/
def saveCookiesToFile (encode : SavedCookie → Except String String) (cookies : Slice Cookie)
    (fs : FileSystem) : Option String × FileSystem :=
  let saveCookies := saveCookiesLoop cookies.toList .nil
  match MarshalIndent encode saveCookies with
  | .error e => (some e, fs)
  | .ok data => WriteFile fs "cookies.json" data

/-! ## Reading a run of the poll loop -/

/-- Status decoded from an exchange: present when the request got a response whose body
decodes. -/
def decoded (w : World) (x : Exchange) : Option StatusResp :=
  match x.result with
  | .err _ => none
  | .ok resp =>
    match w.unmarshalStatus resp.Body with
    | .ok s => some s
    | .error _ => none

/-- The request failed in transport. -/
def isTransportError (x : Exchange) : Bool :=
  match x.result with
  | .err _ => true
  | .ok _ => false

/-- The response decodes with outer code 0 and inner code 0. -/
def isSuccess (w : World) (x : Exchange) : Bool :=
  match decoded w x with
  | some s => decide (s.Code = 0) && decide (s.Data.Code = 0)
  | none => false

/-- The response decodes with outer code 86038. -/
def isExpired (w : World) (x : Exchange) : Bool :=
  match decoded w x with
  | some s => decide (s.Code = 86038)
  | none => false

/-- The time a pass through the loop takes when the loop goes round: the request, and the
sleep when the body decoded. -/
def passTime (w : World) (x : Exchange) : Nat :=
  x.elapsed + (if (decoded w x).isSome then PollInterval else 0)

/-- Clock reading when request number `i` (counted from 0) is about to be issued, in a run
that gets that far. -/
def issueTime (w : World) (url : String) : Nat → Nat
  | 0 => 0
  | i + 1 => issueTime w url i + passTime w (w.Get url i)

/-- Log entries a pass through the loop leaves when the loop goes round. -/
def passLog (w : World) (x : Exchange) : List Event :=
  if (decoded w x).isSome then [Event.request, Event.sleep PollInterval] else [Event.request]

/-- Log when request number `i` is about to be issued, in a run that gets that far. -/
def issueLog (w : World) (url : String) : Nat → List Event
  | 0 => []
  | i + 1 => issueLog w url i ++ passLog w (w.Get url i)

/-- Loop state when request number `i` is about to be issued, in a run that gets that far. -/
def issueState (w : World) (url : String) (i : Nat) : PollState :=
  { now := issueTime w url i, requests := i, log := issueLog w url i }

/-- Records of the header values that parse, concatenated in arrival order; a value that
fails to parse contributes nothing. -/
def cookiesInArrivalOrder (parse : String → Except String (List Cookie))
    (values : List String) : List Cookie :=
  values.flatMap (fun v =>
    match parse v with
    | .ok cs => cs
    | .error _ => [])

/-- Outer code of an exchange whose body decodes. -/
def outerCode (w : World) (x : Exchange) : Option Int :=
  (decoded w x).map (fun s => s.Code)

/-- Inner code of an exchange whose body decodes. -/
def innerCode (w : World) (x : Exchange) : Option Int :=
  (decoded w x).map (fun s => s.Data.Code)

/-- State carried by the outcome of a pass through the loop. -/
def Iter.state : Iter → PollState
  | .done _ st => st
  | .next st => st

/-- State right after the request of a pass that starts in `st`. -/
def afterRequest (w : World) (url : String) (st : PollState) : PollState :=
  { now := st.now + (w.Get url st.requests).elapsed, requests := st.requests + 1,
    log := st.log ++ [Event.request] }

/-- The `LoginInfo` the success branch returns for a response decoded as `s`. -/
def loginInfoOf (resp : Response) (s : StatusResp) : LoginInfo :=
  { s.Data with Cookies := parseResponseCookies resp.Header }

/-! ## Sample inputs -/

/-- Sample decoder for the challenge body: two bodies decode, everything else is rejected. -/
def sampleUnmarshalQrcode (body : String) : Except String QrcodeResponse :=
  if body = "challenge" then
    .ok { Code := 0, Message := "0", Ttl := 1,
          Data := { Url := "https://passport.bilibili.com/h5-app/passport/login/scan?navhide=1\\u0026qrcode_key=k1",
                    QrcodeKey := " k1 " } }
  else if body = "rejected" then
    .ok { Code := -412, Message := "request was banned", Ttl := 1 }
  else .error "invalid character"

/-- Sample decoder for poll bodies: a handful of bodies decode, everything else is rejected. -/
def sampleUnmarshalStatus (body : String) : Except String StatusResp :=
  if body = "waiting" then .ok { Code := 86101, Message := "not scanned" }
  else if body = "scanned" then .ok { Code := 86090, Message := "scanned" }
  else if body = "expired" then .ok { Code := 86038, Message := "expired" }
  else if body = "unconfirmed" then .ok { Code := 0, Data := { Code := 86090 } }
  else if body = "banned" then .ok { Code := -412, Message := "request was banned" }
  else if body = "confirmed" then
    .ok { Code := 0, Message := "0",
          Data := { Url := "https://www.bilibili.com", RefreshToken := "r1",
                    Timestamp := 1700000000000, Code := 0, Message := "" } }
  else .error "invalid character"

/-- Sample world: `challenge` answers the challenge request, the poll requests are answered
by `script` in order and by `rest` once the script is used up. -/
def scriptedWorld (challenge : Exchange) (script : List Exchange) (rest : Exchange) : World where
  Get url i := if url = generateURL then challenge else script.getD i rest
  unmarshalQrcode := sampleUnmarshalQrcode
  unmarshalStatus := sampleUnmarshalStatus

/-- Sample exchange: an immediate response with the given body and `Set-Cookie` values. -/
def reply (body : String) (setCookie : List String) : Exchange :=
  { elapsed := 0, result := .ok { Header := [("Set-Cookie", setCookie)], Body := body } }

/-- Sample run: not scanned, scanned, confirmed (with one session cookie). -/
def threePollWorld : World :=
  scriptedWorld (reply "challenge" [])
    [reply "waiting" ["stale=1"], reply "scanned" [], reply "confirmed" ["SESSDATA=abc"]]
    (reply "waiting" [])

/-- Sample run: not scanned, then expired. -/
def expiryWorld : World :=
  scriptedWorld (reply "challenge" []) [reply "waiting" [], reply "expired" []]
    (reply "waiting" [])

/-- Sample run: an unlisted outer code, outer 0 with a non-zero inner code, then confirmed. -/
def otherCodesWorld : World :=
  scriptedWorld (reply "challenge" [])
    [reply "banned" [], reply "unconfirmed" [], reply "confirmed" []] (reply "waiting" [])

/-- Sample run: every poll is answered at once with a page that does not decode. -/
def undecodableWorld : World :=
  scriptedWorld (reply "challenge" []) [] (reply "<html>" [])

/-- Sample run: the first poll is answered with a page that does not decode, every later
one at once with outer code 86101. -/
def oneUndecodableWorld : World :=
  scriptedWorld (reply "challenge" []) [reply "<html>" []] (reply "waiting" [])

/-- The `LoginInfo` of the sample confirmed response. -/
def confirmedInfo : LoginInfo :=
  { Url := "https://www.bilibili.com", RefreshToken := "r1", Timestamp := 1700000000000,
    Code := 0, Message := "", Cookies := Slice.mk [{ Name := "SESSDATA", Value := "abc" }] }

/-- Loop state at the end of the sample three-poll run. -/
def threePollFinal : PollState :=
  { now := 2 * PollInterval, requests := 3,
    log := [Event.request, Event.sleep PollInterval, Event.request, Event.sleep PollInterval,
            Event.request] }

/-! ## Cookie extraction -/

theorem Slice.toList_append {α : Type} (s : Slice α) (xs : List α) :
    (s.append xs).toList = s.toList ++ xs := by
  cases s <;> cases xs <;> simp [Slice.append, Slice.toList]

theorem parseResponseCookiesLoop_toList (parse : String → Except String (List Cookie))
    (values : List String) (acc : Slice Cookie) :
    (parseResponseCookiesLoop parse values acc).toList
      = acc.toList ++ cookiesInArrivalOrder parse values := by
  induction values generalizing acc with
  | nil => simp [parseResponseCookiesLoop, cookiesInArrivalOrder]
  | cons v vs ih =>
    unfold parseResponseCookiesLoop
    cases hv : parse v with
    | error e =>
      simp only [ih]
      simp [cookiesInArrivalOrder, hv]
    | ok cs =>
      simp only [ih, Slice.toList_append]
      simp [cookiesInArrivalOrder, hv]

theorem parseResponseCookiesLoop_all_fail (parse : String → Except String (List Cookie))
    (values : List String) (acc : Slice Cookie)
    (h : ∀ v ∈ values, ∃ e, parse v = .error e) :
    parseResponseCookiesLoop parse values acc = acc := by
  induction values generalizing acc with
  | nil => rfl
  | cons v vs ih =>
    obtain ⟨e, he⟩ := h v (by simp)
    unfold parseResponseCookiesLoop
    rw [he]
    exact ih acc (fun u hu => h u (by simp [hu]))

theorem cookiesInArrivalOrder_append (parse : String → Except String (List Cookie))
    (xs ys : List String) :
    cookiesInArrivalOrder parse (xs ++ ys)
      = cookiesInArrivalOrder parse xs ++ cookiesInArrivalOrder parse ys := by
  simp [cookiesInArrivalOrder]

/-- C8: for every list of `Set-Cookie` values (and every line parser, `http.ParseCookie` in
particular) `parseResponseCookies` returns the records of the values that parse, concatenated
in arrival order; a value that fails to parse contributes nothing and leaves the records of
the values before and after it in place; the result is the nil slice when every value fails
or there is none. -/
theorem parseResponseCookies_arrival_order (parse : String → Except String (List Cookie))
    (header : Header) :
    (parseResponseCookiesWith parse header).toList
        = cookiesInArrivalOrder parse (header.Values "set-cookie")
    ∧ (parseResponseCookies header).toList
        = cookiesInArrivalOrder ParseCookie (header.Values "set-cookie")
    ∧ (∀ (before after : List String) (bad e : String),
        header.Values "set-cookie" = before ++ bad :: after → parse bad = .error e →
        (parseResponseCookiesWith parse header).toList
          = cookiesInArrivalOrder parse before ++ cookiesInArrivalOrder parse after)
    ∧ ((∀ v ∈ header.Values "set-cookie", ∃ e, parse v = .error e) →
        parseResponseCookiesWith parse header = Slice.nil) := by
  have key : ∀ p : String → Except String (List Cookie),
      (parseResponseCookiesWith p header).toList
        = cookiesInArrivalOrder p (header.Values "set-cookie") := by
    intro p
    rw [parseResponseCookiesWith, parseResponseCookiesLoop_toList]
    simp [Slice.toList]
  refine ⟨key parse, key ParseCookie, ?_, ?_⟩
  · intro before after bad e hsplit hbad
    rw [key parse, hsplit, cookiesInArrivalOrder_append]
    simp [cookiesInArrivalOrder, hbad]
  · intro h
    exact parseResponseCookiesLoop_all_fail parse _ _ h

/-- Witness for C8: a header with a failing value between two values that parse. -/
theorem parseResponseCookies_arrival_order_witness :
    (parseResponseCookiesWith ParseCookie [("Set-Cookie", ["a=b", "bad", "c=d"])]).toList
      = cookiesInArrivalOrder ParseCookie ["a=b"] ++ cookiesInArrivalOrder ParseCookie ["c=d"] :=
  (parseResponseCookies_arrival_order ParseCookie [("Set-Cookie", ["a=b", "bad", "c=d"])]).2.2.1
    ["a=b"] ["c=d"] "bad" "http: '=' not found in cookie" (by decide) rfl

/-- C5, evaluated: with one malformed value and one well-formed `Set-Cookie` line carrying
attributes, `parseResponseCookies` returns three records when every attribute has the form
`key=value` (each attribute becomes a record of its own), and none at all when an attribute
is a bare word such as `HttpOnly`; in neither case exactly one. -/
theorem parseResponseCookies_attributes :
    parseResponseCookies [("Set-Cookie", ["garbage", "SESSDATA=abc; Path=/; Domain=bilibili.com"])]
      = Slice.mk [{ Name := "SESSDATA", Value := "abc" }, { Name := "Path", Value := "/" },
                  { Name := "Domain", Value := "bilibili.com" }]
    ∧ parseResponseCookies [("Set-Cookie", ["SESSDATA=abc; Path=/; HttpOnly", "garbage"])]
      = Slice.nil := by
  constructor <;> decide

/-! ## The challenge request -/

/-- C6: when the challenge request is answered with status 200 and a body, read without
error, that decodes with top-level code 0, `GetLoginURL` returns a nil error and the decoded
response itself, so `Data.Url` and `Data.QrcodeKey` are the decoded `url` and `qrcode_key`,
unchanged. -/
theorem GetLoginURL_code_zero (w : World) (resp : Response) (qrResp : QrcodeResponse)
    (hget : (w.Get generateURL 0).result = GetResult.ok resp)
    (hstatus : resp.StatusCode = 200) (hread : resp.ReadErr = none)
    (hdecode : w.unmarshalQrcode resp.Body = Except.ok qrResp) (hcode : qrResp.Code = 0) :
    ∃ q, GetLoginURL w = (some q, none) ∧ q = qrResp
      ∧ q.Data.Url = qrResp.Data.Url ∧ q.Data.QrcodeKey = qrResp.Data.QrcodeKey := by
  refine ⟨qrResp, ?_, rfl, rfl, rfl⟩
  simp [GetLoginURL, hget, hstatus, hread, hdecode, hcode]

/-- Witness for C6: the sample challenge, whose url holds an escape sequence and whose key
has surrounding blanks; both come back as decoded. -/
theorem GetLoginURL_code_zero_witness :
    ∃ q, GetLoginURL (scriptedWorld (reply "challenge" []) [] (reply "waiting" []))
        = (some q, none)
      ∧ q = { Code := 0, Message := "0", Ttl := 1,
              Data := { Url := "https://passport.bilibili.com/h5-app/passport/login/scan?navhide=1\\u0026qrcode_key=k1",
                        QrcodeKey := " k1 " } }
      ∧ q.Data.Url = "https://passport.bilibili.com/h5-app/passport/login/scan?navhide=1\\u0026qrcode_key=k1"
      ∧ q.Data.QrcodeKey = " k1 " :=
  GetLoginURL_code_zero (scriptedWorld (reply "challenge" []) [] (reply "waiting" []))
    { Header := [("Set-Cookie", [])], Body := "challenge" } _ rfl rfl rfl rfl rfl

/-- C7: when the challenge request is answered with status 200 and a body, read without
error, that decodes with a top-level code other than 0, `GetLoginURL` returns no response and the error
`API返回错误: [code]message` built from the decoded code and message. -/
theorem GetLoginURL_code_nonzero (w : World) (resp : Response) (qrResp : QrcodeResponse)
    (hget : (w.Get generateURL 0).result = GetResult.ok resp)
    (hstatus : resp.StatusCode = 200) (hread : resp.ReadErr = none)
    (hdecode : w.unmarshalQrcode resp.Body = Except.ok qrResp) (hcode : qrResp.Code ≠ 0) :
    GetLoginURL w
      = (none, some ("API返回错误: [" ++ toString qrResp.Code ++ "]" ++ qrResp.Message)) := by
  simp [GetLoginURL, hget, hstatus, hread, hdecode, hcode]

/-- Witness for C7: the sample rejected challenge, code -412. -/
theorem GetLoginURL_code_nonzero_witness :
    GetLoginURL (scriptedWorld (reply "rejected" []) [] (reply "waiting" []))
      = (none, some ("API返回错误: [" ++ toString (-412 : Int) ++ "]" ++ "request was banned")) :=
  GetLoginURL_code_nonzero (scriptedWorld (reply "rejected" []) [] (reply "waiting" []))
    { Header := [("Set-Cookie", [])], Body := "rejected" }
    { Code := -412, Message := "request was banned", Ttl := 1 } rfl rfl rfl rfl (by decide)

/-! ## Persisting cookies -/

/-- C4, evaluated: for the nil slice and for the empty slice alike, `saveCookiesToFile`
reports no error and leaves `null` in `cookies.json`, which is not the array literal. -/
theorem saveCookiesToFile_empty_writes_null (encode : SavedCookie → Except String String) :
    (saveCookiesToFile encode Slice.nil {}).1 = none
    ∧ (saveCookiesToFile encode Slice.nil {}).2.read "cookies.json" = some "null"
    ∧ (saveCookiesToFile encode (Slice.mk []) {}).1 = none
    ∧ (saveCookiesToFile encode (Slice.mk []) {}).2.read "cookies.json" = some "null"
    ∧ "null" ≠ "[]" := by
  refine ⟨rfl, ?_, rfl, ?_, by decide⟩ <;>
    simp [saveCookiesToFile, saveCookiesLoop, Slice.toList, MarshalIndent, WriteFile,
      FileSystem.read]

/-! ## One pass through the poll loop -/

theorem pollStep_timeout (w : World) (url : String) (st : PollState)
    (hnow : ¬ st.now < PollTimeout) :
    pollStep w url st = Iter.done (none, some "轮询超时") st := by
  simp [pollStep, hnow]

theorem pollStep_transport (w : World) (url : String) (st : PollState) (e : String)
    (hnow : st.now < PollTimeout) (hx : (w.Get url st.requests).result = GetResult.err e) :
    pollStep w url st
      = Iter.done (none, some ("轮询请求失败: " ++ e)) (afterRequest w url st) := by
  simp [pollStep, hnow, hx, afterRequest]

theorem pollStep_undecodable (w : World) (url : String) (st : PollState) (resp : Response)
    (e : String) (hnow : st.now < PollTimeout)
    (hx : (w.Get url st.requests).result = GetResult.ok resp)
    (hd : w.unmarshalStatus resp.Body = Except.error e) :
    pollStep w url st = Iter.next (afterRequest w url st) := by
  simp [pollStep, hnow, hx, hd, afterRequest]

theorem pollStep_success (w : World) (url : String) (st : PollState) (resp : Response)
    (s : StatusResp) (hnow : st.now < PollTimeout)
    (hx : (w.Get url st.requests).result = GetResult.ok resp)
    (hd : w.unmarshalStatus resp.Body = Except.ok s)
    (houter : s.Code = 0) (hinner : s.Data.Code = 0) :
    pollStep w url st = Iter.done (some (loginInfoOf resp s), none) (afterRequest w url st) := by
  simp [pollStep, hnow, hx, hd, houter, hinner, afterRequest, loginInfoOf]

theorem pollStep_expired (w : World) (url : String) (st : PollState) (resp : Response)
    (s : StatusResp) (hnow : st.now < PollTimeout)
    (hx : (w.Get url st.requests).result = GetResult.ok resp)
    (hd : w.unmarshalStatus resp.Body = Except.ok s)
    (houter : s.Code = 86038) :
    pollStep w url st = Iter.done (none, some "二维码已过期") (afterRequest w url st) := by
  simp [pollStep, hnow, hx, hd, houter, afterRequest]

theorem pollStep_pending (w : World) (url : String) (st : PollState) (resp : Response)
    (s : StatusResp) (hnow : st.now < PollTimeout)
    (hx : (w.Get url st.requests).result = GetResult.ok resp)
    (hd : w.unmarshalStatus resp.Body = Except.ok s)
    (hns : ¬ (s.Code = 0 ∧ s.Data.Code = 0)) (hne : s.Code ≠ 86038) :
    pollStep w url st = Iter.next (sleepInterval (afterRequest w url st)) := by
  by_cases h0 : s.Code = 0
  · have h1 : ¬ s.Data.Code = 0 := fun h => hns ⟨h0, h⟩
    simp [pollStep, hnow, hx, hd, h0, h1, afterRequest]
  · simp [pollStep, hnow, hx, hd, h0, hne, afterRequest]

theorem decoded_eq_some (w : World) (x : Exchange) (s : StatusResp)
    (h : decoded w x = some s) :
    ∃ resp, x.result = GetResult.ok resp ∧ w.unmarshalStatus resp.Body = Except.ok s := by
  unfold decoded at h
  cases hx : x.result with
  | err e => simp [hx] at h
  | ok resp =>
    cases hd : w.unmarshalStatus resp.Body with
    | error e => simp [hx, hd] at h
    | ok s1 =>
      simp [hx, hd] at h
      exact ⟨resp, rfl, by rw [hd, h]⟩

theorem decoded_of_ok (w : World) (x : Exchange) (resp : Response) (s : StatusResp)
    (hx : x.result = GetResult.ok resp) (hd : w.unmarshalStatus resp.Body = Except.ok s) :
    decoded w x = some s := by
  simp [decoded, hx, hd]

theorem decoded_of_error (w : World) (x : Exchange) (resp : Response) (e : String)
    (hx : x.result = GetResult.ok resp) (hd : w.unmarshalStatus resp.Body = Except.error e) :
    decoded w x = none := by
  simp [decoded, hx, hd]

/-- A pass over an exchange that is neither a transport error, nor a success, nor an expiry
goes round, taking `passTime` and logging `passLog`. -/
theorem pollStep_continues (w : World) (url : String) (st : PollState)
    (hnow : st.now < PollTimeout)
    (ht : isTransportError (w.Get url st.requests) = false)
    (hs : isSuccess w (w.Get url st.requests) = false)
    (he : isExpired w (w.Get url st.requests) = false) :
    pollStep w url st
      = Iter.next { now := st.now + passTime w (w.Get url st.requests),
                    requests := st.requests + 1,
                    log := st.log ++ passLog w (w.Get url st.requests) } := by
  cases hx : (w.Get url st.requests).result with
  | err e => simp [isTransportError, hx] at ht
  | ok resp =>
    cases hd : w.unmarshalStatus resp.Body with
    | error e =>
      rw [pollStep_undecodable w url st resp e hnow hx hd]
      simp [passTime, passLog, decoded_of_error w _ resp e hx hd, afterRequest]
    | ok s =>
      have hdec := decoded_of_ok w _ resp s hx hd
      have hns : ¬ (s.Code = 0 ∧ s.Data.Code = 0) := by
        simpa [isSuccess, hdec] using hs
      have hne : s.Code ≠ 86038 := by
        simpa [isExpired, hdec] using he
      rw [pollStep_pending w url st resp s hnow hx hd hns hne]
      simp [passTime, passLog, hdec, afterRequest, sleepInterval, Nat.add_assoc]

theorem issueTime_mono (w : World) (url : String) (i k : Nat) (h : i ≤ k) :
    issueTime w url i ≤ issueTime w url k := by
  obtain ⟨d, rfl⟩ := Nat.exists_eq_add_of_le h
  induction d with
  | zero => exact Nat.le_refl _
  | succ d ih =>
    have h1 := ih (by omega)
    have h2 : issueTime w url (i + (d + 1))
        = issueTime w url (i + d) + passTime w (w.Get url (i + d)) := rfl
    omega

/-- A run whose first `k` exchanges are neither transport errors, successes nor expiries,
and whose `k`-th request is still issued in time, reaches `issueState k` after `k` passes. -/
theorem pollLoop_reach (w : World) (url : String) (k : Nat)
    (hearlier : ∀ i, i < k → isTransportError (w.Get url i) = false
      ∧ isSuccess w (w.Get url i) = false ∧ isExpired w (w.Get url i) = false)
    (htime : ∀ i, i < k → issueTime w url i < PollTimeout) (fuel : Nat) :
    pollLoop w url (fuel + k) {} = pollLoop w url fuel (issueState w url k) := by
  induction k generalizing fuel with
  | zero => rfl
  | succ k ih =>
    have hstep := ih (fun i hi => hearlier i (by omega)) (fun i hi => htime i (by omega))
      (fuel + 1)
    have heq : fuel + (k + 1) = fuel + 1 + k := by omega
    rw [heq, hstep]
    obtain ⟨ht, hs, he⟩ := hearlier k (by omega)
    have hnow : (issueState w url k).now < PollTimeout := htime k (by omega)
    have := pollStep_continues w url (issueState w url k) hnow ht hs he
    simp only [pollLoop, this]
    rfl

theorem issueLog_count (w : World) (url : String) (k : Nat) :
    (issueLog w url k).count Event.request = k := by
  induction k with
  | zero => rfl
  | succ k ih =>
    simp only [issueLog, List.count_append, ih, passLog]
    split <;> simp [List.count_cons]


theorem PollTimeout_eq : PollTimeout = 180000000000 := rfl

theorem PollInterval_eq : PollInterval = 2000000000 := rfl

theorem outerCode_eq_some (w : World) (x : Exchange) (c : Int) (h : outerCode w x = some c) :
    ∃ resp s, x.result = GetResult.ok resp ∧ w.unmarshalStatus resp.Body = Except.ok s
      ∧ decoded w x = some s ∧ s.Code = c := by
  unfold outerCode at h
  cases hd : decoded w x with
  | none => simp [hd] at h
  | some s =>
    obtain ⟨resp, hx, hu⟩ := decoded_eq_some w x s hd
    simp [hd] at h
    exact ⟨resp, s, hx, hu, rfl, h⟩

/-- An exchange decoded with an outer code other than 0 and 86038 makes the loop go round
with a sleep. -/
theorem pending_of_outerCode (w : World) (x : Exchange) (c : Int) (h : outerCode w x = some c)
    (h0 : c ≠ 0) (h1 : c ≠ 86038) :
    isTransportError x = false ∧ isSuccess w x = false ∧ isExpired w x = false
      ∧ (decoded w x).isSome = true := by
  obtain ⟨resp, s, hx, _, hd, hc⟩ := outerCode_eq_some w x c h
  subst hc
  simp [isTransportError, isSuccess, isExpired, hx, hd, h0, h1]

/-- Outcome of a pass, by the kind of exchange it meets. -/
theorem pollStep_cases (w : World) (url : String) (st : PollState) :
    (¬ st.now < PollTimeout ∧ pollStep w url st = Iter.done (none, some "轮询超时") st)
    ∨ (st.now < PollTimeout ∧ ∃ resp s,
        (w.Get url st.requests).result = GetResult.ok resp
        ∧ w.unmarshalStatus resp.Body = Except.ok s ∧ s.Code = 0 ∧ s.Data.Code = 0
        ∧ isSuccess w (w.Get url st.requests) = true
        ∧ pollStep w url st
            = Iter.done (some (loginInfoOf resp s), none) (afterRequest w url st))
    ∨ (st.now < PollTimeout ∧ isSuccess w (w.Get url st.requests) = false
        ∧ ∃ e, pollStep w url st = Iter.done (none, some e) (afterRequest w url st))
    ∨ (st.now < PollTimeout ∧ isSuccess w (w.Get url st.requests) = false
        ∧ (pollStep w url st = Iter.next (afterRequest w url st)
           ∨ pollStep w url st = Iter.next (sleepInterval (afterRequest w url st)))) := by
  by_cases hnow : st.now < PollTimeout
  · right
    cases hx : (w.Get url st.requests).result with
    | err e =>
      right; left
      exact ⟨hnow, by simp [isSuccess, decoded, hx], _, pollStep_transport w url st e hnow hx⟩
    | ok resp =>
      cases hd : w.unmarshalStatus resp.Body with
      | error e =>
        right; right
        exact ⟨hnow, by simp [isSuccess, decoded, hx, hd],
          Or.inl (pollStep_undecodable w url st resp e hnow hx hd)⟩
      | ok s =>
        have hdec := decoded_of_ok w _ resp s hx hd
        by_cases hs : s.Code = 0 ∧ s.Data.Code = 0
        · left
          exact ⟨hnow, resp, s, rfl, hd, hs.1, hs.2, by simp [isSuccess, hdec, hs.1, hs.2],
            pollStep_success w url st resp s hnow hx hd hs.1 hs.2⟩
        · have hfalse : isSuccess w (w.Get url st.requests) = false := by
            simp only [isSuccess, hdec]
            simpa using hs
          by_cases he : s.Code = 86038
          · right; left
            exact ⟨hnow, hfalse, _, pollStep_expired w url st resp s hnow hx hd he⟩
          · right; right
            exact ⟨hnow, hfalse, Or.inr (pollStep_pending w url st resp s hnow hx hd hs he)⟩
  · left
    exact ⟨hnow, pollStep_timeout w url st hnow⟩

/-- A pass that starts before the timeout issues exactly one request, first thing. -/
theorem pollStep_issues_request (w : World) (url : String) (st : PollState)
    (hnow : st.now < PollTimeout) :
    (pollStep w url st).state.requests = st.requests + 1
      ∧ st.log ++ [Event.request] <+: (pollStep w url st).state.log := by
  rcases pollStep_cases w url st with h | h | h | h
  · exact absurd hnow h.1
  · obtain ⟨_, resp, s, _, _, _, _, _, hstep⟩ := h
    rw [hstep]
    exact ⟨rfl, List.prefix_refl _⟩
  · obtain ⟨_, _, e, hstep⟩ := h
    rw [hstep]
    exact ⟨rfl, List.prefix_refl _⟩
  · obtain ⟨_, _, hstep | hstep⟩ := h
    · rw [hstep]
      exact ⟨rfl, List.prefix_refl _⟩
    · rw [hstep]
      exact ⟨rfl, by simp [Iter.state, sleepInterval, afterRequest]⟩

/-- A returned `LoginInfo` is built from the exchange of the last request issued. -/
theorem pollLoop_success_last (w : World) (url : String) (fuel : Nat) (st st1 : PollState)
    (info : LoginInfo) (err : Option String)
    (h : pollLoop w url fuel st = some ((some info, err), st1)) :
    err = none ∧ 0 < st1.requests ∧ ∃ resp s,
      (w.Get url (st1.requests - 1)).result = GetResult.ok resp
      ∧ w.unmarshalStatus resp.Body = Except.ok s
      ∧ s.Code = 0 ∧ s.Data.Code = 0 ∧ info = loginInfoOf resp s
      ∧ st1.log.getLast? = some Event.request := by
  induction fuel generalizing st with
  | zero => simp [pollLoop] at h
  | succ fuel ih =>
    rcases pollStep_cases w url st with c | c | c | c
    · simp [pollLoop, c.2] at h
    · obtain ⟨_, resp, s, hx, hd, ho, hi, _, hstep⟩ := c
      simp only [pollLoop, hstep, Option.some.injEq, Prod.mk.injEq] at h
      obtain ⟨⟨hinfo, herr⟩, hst⟩ := h
      subst hst
      refine ⟨herr.symm, by simp [afterRequest], resp, s, ?_, hd, ho, hi, hinfo.symm, ?_⟩
      · simpa [afterRequest] using hx
      · simp [afterRequest]
    · obtain ⟨_, _, e, hstep⟩ := c
      simp [pollLoop, hstep] at h
    · obtain ⟨_, _, hstep | hstep⟩ := c
      · simp only [pollLoop, hstep] at h
        exact ih _ h
      · simp only [pollLoop, hstep] at h
        exact ih _ h

/-- The loop returns a `LoginInfo` exactly when one of the exchanges it went through is a
success, given that none before the starting point was. -/
theorem pollLoop_success_iff (w : World) (url : String) (fuel : Nat) (st st1 : PollState)
    (r : GoResult LoginInfo)
    (h : pollLoop w url fuel st = some (r, st1))
    (hinv : ∀ i, i < st.requests → isSuccess w (w.Get url i) = false) :
    (∃ info, r = (some info, none))
      ↔ ∃ i, i < st1.requests ∧ isSuccess w (w.Get url i) = true := by
  induction fuel generalizing st with
  | zero => simp [pollLoop] at h
  | succ fuel ih =>
    have hext : ∀ st2 : PollState, st2.requests = st.requests + 1 →
        isSuccess w (w.Get url st.requests) = false →
        ∀ i, i < st2.requests → isSuccess w (w.Get url i) = false := by
      intro st2 h2 hcur i hi
      by_cases hlt : i < st.requests
      · exact hinv i hlt
      · have : i = st.requests := by omega
        rw [this]; exact hcur
    rcases pollStep_cases w url st with c | c | c | c
    · simp only [pollLoop, c.2, Option.some.injEq, Prod.mk.injEq] at h
      obtain ⟨hr, hst⟩ := h
      subst hr; subst hst
      constructor
      · rintro ⟨info, hinfo⟩
        simp at hinfo
      · rintro ⟨i, hi, hs⟩
        rw [hinv i hi] at hs
        exact absurd hs (by simp)
    · obtain ⟨_, resp, s, _, _, _, _, hsucc, hstep⟩ := c
      simp only [pollLoop, hstep, Option.some.injEq, Prod.mk.injEq] at h
      obtain ⟨hr, hst⟩ := h
      subst hr; subst hst
      exact ⟨fun _ => ⟨st.requests, by simp [afterRequest], hsucc⟩, fun _ => ⟨_, rfl⟩⟩
    · obtain ⟨_, hcur, e, hstep⟩ := c
      simp only [pollLoop, hstep, Option.some.injEq, Prod.mk.injEq] at h
      obtain ⟨hr, hst⟩ := h
      subst hr; subst hst
      constructor
      · rintro ⟨info, hinfo⟩
        simp at hinfo
      · rintro ⟨i, hi, hs⟩
        rw [hext (afterRequest w url st) rfl hcur i hi] at hs
        exact absurd hs (by simp)
    · obtain ⟨_, hcur, hstep | hstep⟩ := c
      · simp only [pollLoop, hstep] at h
        exact ih _ h (hext _ rfl hcur)
      · simp only [pollLoop, hstep] at h
        exact ih _ h (hext _ rfl hcur)


/-! ## The poll loop as a whole -/

/-- C1: when the first three poll requests are answered with outer code 86101, outer code
86090, and outer code 0 with inner code 0, and the third request is issued in time,
`PollLoginStatus` returns a `LoginInfo` and a nil error after exactly three requests and
exactly two sleeps of one poll interval, one after each of the first two responses and none
after the third. -/
theorem PollLoginStatus_three_polls (w : World) (qrcodeKey : String)
    (h0 : outerCode w (w.Get (pollURL qrcodeKey) 0) = some 86101)
    (h1 : outerCode w (w.Get (pollURL qrcodeKey) 1) = some 86090)
    (h2 : outerCode w (w.Get (pollURL qrcodeKey) 2) = some 0)
    (h3 : innerCode w (w.Get (pollURL qrcodeKey) 2) = some 0)
    (htime : (w.Get (pollURL qrcodeKey) 0).elapsed + (w.Get (pollURL qrcodeKey) 1).elapsed
      + 2 * PollInterval < PollTimeout)
    (fuel : Nat) (hfuel : 3 ≤ fuel) :
    ∃ info st, PollLoginStatus w qrcodeKey fuel = some ((some info, none), st)
      ∧ st.requests = 3
      ∧ st.log = [Event.request, Event.sleep PollInterval, Event.request,
                  Event.sleep PollInterval, Event.request]
      ∧ st.log.count Event.request = 3
      ∧ st.log.count (Event.sleep PollInterval) = 2 := by
  obtain ⟨p0t, p0s, p0e, p0d⟩ := pending_of_outerCode w _ _ h0 (by decide) (by decide)
  obtain ⟨p1t, p1s, p1e, p1d⟩ := pending_of_outerCode w _ _ h1 (by decide) (by decide)
  obtain ⟨resp, s, hx, hu, hd, hc⟩ := outerCode_eq_some w _ _ h2
  have hi : s.Data.Code = 0 := by
    simpa [innerCode, hd] using h3
  have ht1 : issueTime w (pollURL qrcodeKey) 1
      = (w.Get (pollURL qrcodeKey) 0).elapsed + PollInterval := by
    simp [issueTime, passTime, p0d]
  have ht2 : issueTime w (pollURL qrcodeKey) 2
      = (w.Get (pollURL qrcodeKey) 0).elapsed + PollInterval
        + ((w.Get (pollURL qrcodeKey) 1).elapsed + PollInterval) := by
    simp [issueTime, passTime, p0d, p1d]
  have hl2 : issueLog w (pollURL qrcodeKey) 2
      = [Event.request, Event.sleep PollInterval, Event.request, Event.sleep PollInterval] := by
    simp [issueLog, passLog, p0d, p1d]
  have hreach := pollLoop_reach w (pollURL qrcodeKey) 2
    (by
      intro i hi2
      have : i = 0 ∨ i = 1 := by omega
      rcases this with rfl | rfl
      · exact ⟨p0t, p0s, p0e⟩
      · exact ⟨p1t, p1s, p1e⟩)
    (by
      intro i hi2
      have : i = 0 ∨ i = 1 := by omega
      rcases this with rfl | rfl
      · simp [issueTime, PollTimeout_eq]
      · rw [ht1]; omega)
    (fuel - 3 + 1)
  have hfuel2 : fuel = fuel - 3 + 1 + 2 := by omega
  have hnow : (issueState w (pollURL qrcodeKey) 2).now < PollTimeout := by
    show issueTime w (pollURL qrcodeKey) 2 < PollTimeout
    rw [ht2]; omega
  have hstep := pollStep_success w (pollURL qrcodeKey) (issueState w (pollURL qrcodeKey) 2)
    resp s hnow hx hu hc hi
  refine ⟨loginInfoOf resp s, afterRequest w (pollURL qrcodeKey)
    (issueState w (pollURL qrcodeKey) 2), ?_, rfl, ?_, ?_, ?_⟩
  · unfold PollLoginStatus
    rw [hfuel2, hreach]
    simp only [pollLoop, hstep]
  · simp [afterRequest, issueState, hl2]
  · simp [afterRequest, issueState, hl2, List.count_cons]
  · simp [afterRequest, issueState, hl2, List.count_cons]

/-- Witness for C1: the sample three-poll run. -/
theorem PollLoginStatus_three_polls_witness :
    ∃ info st, PollLoginStatus threePollWorld "k1" 3 = some ((some info, none), st)
      ∧ st.requests = 3
      ∧ st.log = [Event.request, Event.sleep PollInterval, Event.request,
                  Event.sleep PollInterval, Event.request]
      ∧ st.log.count Event.request = 3
      ∧ st.log.count (Event.sleep PollInterval) = 2 :=
  PollLoginStatus_three_polls threePollWorld "k1" (by decide) (by decide) (by decide)
    (by decide) (by decide) 3 (by decide)

/-- C2: when request number `k` (counted from 0, so the `k+1`-th request) is answered with
outer code 86038, no earlier request met a transport error, a success or code 86038, and
that request is issued before the timeout, `PollLoginStatus` returns the expiry error and no
`LoginInfo`, having made exactly `k + 1` requests, the last entry of its log being the
request answered with 86038 (no sleep after it). -/
theorem PollLoginStatus_expired (w : World) (qrcodeKey : String) (k : Nat)
    (hk : outerCode w (w.Get (pollURL qrcodeKey) k) = some 86038)
    (hearlier : ∀ i, i < k → isTransportError (w.Get (pollURL qrcodeKey) i) = false
      ∧ isSuccess w (w.Get (pollURL qrcodeKey) i) = false
      ∧ isExpired w (w.Get (pollURL qrcodeKey) i) = false)
    (htime : issueTime w (pollURL qrcodeKey) k < PollTimeout)
    (fuel : Nat) (hfuel : k < fuel) :
    ∃ st, PollLoginStatus w qrcodeKey fuel = some ((none, some "二维码已过期"), st)
      ∧ st.requests = k + 1
      ∧ st.log = issueLog w (pollURL qrcodeKey) k ++ [Event.request]
      ∧ st.log.count Event.request = k + 1
      ∧ st.log.getLast? = some Event.request := by
  obtain ⟨resp, s, hx, hu, _, hc⟩ := outerCode_eq_some w _ _ hk
  have hreach := pollLoop_reach w (pollURL qrcodeKey) k hearlier
    (fun i hi => Nat.lt_of_le_of_lt (issueTime_mono w _ i k (Nat.le_of_lt hi)) htime)
    (fuel - k - 1 + 1)
  have hfuel2 : fuel = fuel - k - 1 + 1 + k := by omega
  have hstep := pollStep_expired w (pollURL qrcodeKey) (issueState w (pollURL qrcodeKey) k)
    resp s htime hx hu hc
  refine ⟨afterRequest w (pollURL qrcodeKey) (issueState w (pollURL qrcodeKey) k),
    ?_, rfl, rfl, ?_, ?_⟩
  · unfold PollLoginStatus
    rw [hfuel2, hreach]
    simp only [pollLoop, hstep]
  · simp [afterRequest, issueState, issueLog_count]
  · simp [afterRequest]

/-- Witness for C2: the sample run that expires on its second request. -/
theorem PollLoginStatus_expired_witness :
    ∃ st, PollLoginStatus expiryWorld "k1" 2 = some ((none, some "二维码已过期"), st)
      ∧ st.requests = 1 + 1
      ∧ st.log = issueLog expiryWorld (pollURL "k1") 1 ++ [Event.request]
      ∧ st.log.count Event.request = 1 + 1
      ∧ st.log.getLast? = some Event.request :=
  PollLoginStatus_expired expiryWorld "k1" 1 (by decide) (by decide) (by decide) 2 (by decide)


/-- C9: whenever `PollLoginStatus` returns a `LoginInfo`, the error is nil and the
`LoginInfo` is built from the response to the last request issued: that response decodes
with outer code 0 and inner code 0, the url, refresh token, timestamp, inner code and message
are those of its data object, and `Cookies` is what `parseResponseCookies` yields on the
headers of that same response. -/
theorem PollLoginStatus_success_is_last_response (w : World) (qrcodeKey : String) (fuel : Nat)
    (info : LoginInfo) (err : Option String) (st : PollState)
    (h : PollLoginStatus w qrcodeKey fuel = some ((some info, err), st)) :
    err = none ∧ 0 < st.requests ∧ st.log.getLast? = some Event.request
      ∧ ∃ resp s, (w.Get (pollURL qrcodeKey) (st.requests - 1)).result = GetResult.ok resp
        ∧ w.unmarshalStatus resp.Body = Except.ok s
        ∧ s.Code = 0 ∧ info.Code = 0 ∧ info.Code = s.Data.Code
        ∧ info.RefreshToken = s.Data.RefreshToken ∧ info.Timestamp = s.Data.Timestamp
        ∧ info.Url = s.Data.Url ∧ info.Message = s.Data.Message
        ∧ info.Cookies = parseResponseCookies resp.Header := by
  obtain ⟨herr, hpos, resp, s, hx, hu, ho, hi, hinfo, hlast⟩ :=
    pollLoop_success_last w (pollURL qrcodeKey) fuel {} st info err h
  subst hinfo
  exact ⟨herr, hpos, hlast, resp, s, hx, hu, ho, hi, rfl, rfl, rfl, rfl, rfl, rfl⟩

/-- Witness for C9: in the sample three-poll run the first response carries a cookie of its
own, and the returned cookies are those of the third response only. -/
theorem PollLoginStatus_success_is_last_response_witness :
    PollLoginStatus threePollWorld "k1" 3 = some ((some confirmedInfo, none), threePollFinal)
    ∧ confirmedInfo.Cookies = Slice.mk [{ Name := "SESSDATA", Value := "abc" }]
    ∧ ((none : Option String) = none ∧ 0 < threePollFinal.requests
      ∧ threePollFinal.log.getLast? = some Event.request
      ∧ ∃ resp s,
        (threePollWorld.Get (pollURL "k1") (threePollFinal.requests - 1)).result
          = GetResult.ok resp
        ∧ threePollWorld.unmarshalStatus resp.Body = Except.ok s
        ∧ s.Code = 0 ∧ confirmedInfo.Code = 0 ∧ confirmedInfo.Code = s.Data.Code
        ∧ confirmedInfo.RefreshToken = s.Data.RefreshToken
        ∧ confirmedInfo.Timestamp = s.Data.Timestamp
        ∧ confirmedInfo.Url = s.Data.Url ∧ confirmedInfo.Message = s.Data.Message
        ∧ confirmedInfo.Cookies = parseResponseCookies resp.Header) :=
  ⟨by decide, rfl,
    PollLoginStatus_success_is_last_response threePollWorld "k1" 3 confirmedInfo none
      threePollFinal (by decide)⟩

/-- A pass that meets a transport error returns an error and no `LoginInfo`. -/
theorem pollStep_of_isTransportError (w : World) (url : String) (st : PollState)
    (hnow : st.now < PollTimeout) (ht : isTransportError (w.Get url st.requests) = true) :
    ∃ e, pollStep w url st = Iter.done (none, some e) (afterRequest w url st) := by
  cases hx : (w.Get url st.requests).result with
  | err e => exact ⟨_, pollStep_transport w url st e hnow hx⟩
  | ok resp => simp [isTransportError, hx] at ht

/-- A pass that meets a response decoding with outer code 0 and inner code 0 returns the
`LoginInfo` built from it, with a nil error. -/
theorem pollStep_of_isSuccess (w : World) (url : String) (st : PollState)
    (hnow : st.now < PollTimeout) (hs : isSuccess w (w.Get url st.requests) = true) :
    ∃ resp s, pollStep w url st
      = Iter.done (some (loginInfoOf resp s), none) (afterRequest w url st) := by
  cases hd : decoded w (w.Get url st.requests) with
  | none => simp [isSuccess, hd] at hs
  | some s =>
    obtain ⟨resp, hx, hu⟩ := decoded_eq_some w _ s hd
    have hcodes : s.Code = 0 ∧ s.Data.Code = 0 := by
      simpa [isSuccess, hd] using hs
    exact ⟨resp, s, pollStep_success w url st resp s hnow hx hu hcodes.1 hcodes.2⟩

/-- A pass that meets a response decoding with outer code 86038 returns the expiry error
and no `LoginInfo`. -/
theorem pollStep_of_isExpired (w : World) (url : String) (st : PollState)
    (hnow : st.now < PollTimeout) (he : isExpired w (w.Get url st.requests) = true) :
    pollStep w url st = Iter.done (none, some "二维码已过期") (afterRequest w url st) := by
  cases hd : decoded w (w.Get url st.requests) with
  | none => simp [isExpired, hd] at he
  | some s =>
    obtain ⟨resp, hx, hu⟩ := decoded_eq_some w _ s hd
    have hcode : s.Code = 86038 := by
      simpa [isExpired, hd] using he
    exact pollStep_expired w url st resp s hnow hx hu hcode

/-- The loop returns a `LoginInfo` once it issues, before the timeout, a request that is
answered with outer code 0 and inner code 0. -/
theorem pollLoop_returns_success (w : World) (url : String) (k : Nat)
    (hk : isSuccess w (w.Get url k) = true)
    (hearlier : ∀ i, i < k → isTransportError (w.Get url i) = false
      ∧ isSuccess w (w.Get url i) = false ∧ isExpired w (w.Get url i) = false)
    (htime : issueTime w url k < PollTimeout) (fuel : Nat) (hfuel : k < fuel) :
    ∃ info st, pollLoop w url fuel {} = some ((some info, none), st)
      ∧ st.requests = k + 1 ∧ st.log = issueLog w url k ++ [Event.request] := by
  have hreach := pollLoop_reach w url k hearlier
    (fun i hi => Nat.lt_of_le_of_lt (issueTime_mono w _ i k (Nat.le_of_lt hi)) htime)
    (fuel - k - 1 + 1)
  have hfuel2 : fuel = fuel - k - 1 + 1 + k := by omega
  obtain ⟨resp, s, hstep⟩ := pollStep_of_isSuccess w url (issueState w url k) htime hk
  refine ⟨loginInfoOf resp s, afterRequest w url (issueState w url k), ?_, rfl, rfl⟩
  rw [hfuel2, hreach]
  simp only [pollLoop, hstep]

/-- A `LoginInfo` returned by the loop comes from a request that was issued before the
timeout, after requests that were neither transport errors, successes nor expiries, and
that was answered with outer code 0 and inner code 0. -/
theorem pollLoop_success_reached (w : World) (url : String) (fuel j : Nat)
    (info : LoginInfo) (err : Option String) (st : PollState)
    (h : pollLoop w url fuel (issueState w url j) = some ((some info, err), st))
    (hinv : ∀ i, i < j → isTransportError (w.Get url i) = false
      ∧ isSuccess w (w.Get url i) = false ∧ isExpired w (w.Get url i) = false) :
    ∃ k, isSuccess w (w.Get url k) = true
      ∧ (∀ i, i < k → isTransportError (w.Get url i) = false
          ∧ isSuccess w (w.Get url i) = false ∧ isExpired w (w.Get url i) = false)
      ∧ issueTime w url k < PollTimeout ∧ st.requests = k + 1 := by
  induction fuel generalizing j with
  | zero => simp [pollLoop] at h
  | succ fuel ih =>
    by_cases hnow : (issueState w url j).now < PollTimeout
    · cases hs : isSuccess w (w.Get url j) with
      | true =>
        obtain ⟨resp, s, hstep⟩ := pollStep_of_isSuccess w url (issueState w url j) hnow hs
        simp only [pollLoop, hstep, Option.some.injEq, Prod.mk.injEq] at h
        refine ⟨j, hs, hinv, hnow, ?_⟩
        rw [← h.2]
        rfl
      | false =>
        cases ht : isTransportError (w.Get url j) with
        | true =>
          obtain ⟨e, hstep⟩ := pollStep_of_isTransportError w url (issueState w url j) hnow ht
          simp [pollLoop, hstep] at h
        | false =>
          cases he : isExpired w (w.Get url j) with
          | true =>
            have hstep := pollStep_of_isExpired w url (issueState w url j) hnow he
            simp [pollLoop, hstep] at h
          | false =>
            have hstep := pollStep_continues w url (issueState w url j) hnow ht hs he
            simp only [pollLoop, hstep] at h
            refine ih (j + 1) h ?_
            intro i hi
            by_cases hlt : i < j
            · exact hinv i hlt
            · have hij : i = j := by omega
              subst hij
              exact ⟨ht, hs, he⟩
    · simp [pollLoop, pollStep_timeout w url _ hnow] at h

/-- C10: a pass that decodes a response whose codes are neither outer 0 with inner 0 nor
outer 86038 does not return: the loop goes round after the request and exactly one sleep of
one poll interval; from there the next pass issues the next request when the clock is still
below the timeout and returns the timeout error otherwise. And success is returned exactly
for a response with outer code 0 and inner code 0: `PollLoginStatus` does return a
`LoginInfo` with a nil error, for every bound on the passes above `k`, when request number
`k` is issued before the timeout and answered with outer 0 and inner 0; it returns one for
some bound if and only if there is such a request; and whenever it returns at all, the
result is a `LoginInfo` with a nil error if and only if one of the responses it received
decodes with outer 0 and inner 0. -/
theorem PollLoginStatus_other_codes_keep_polling (w : World) (qrcodeKey : String) :
    (∀ (st : PollState) (s : StatusResp), st.now < PollTimeout →
      decoded w (w.Get (pollURL qrcodeKey) st.requests) = some s →
      ¬ (s.Code = 0 ∧ s.Data.Code = 0) → s.Code ≠ 86038 →
      pollStep w (pollURL qrcodeKey) st
          = Iter.next (sleepInterval (afterRequest w (pollURL qrcodeKey) st))
      ∧ (sleepInterval (afterRequest w (pollURL qrcodeKey) st)).now
          = st.now + (w.Get (pollURL qrcodeKey) st.requests).elapsed + PollInterval
      ∧ (sleepInterval (afterRequest w (pollURL qrcodeKey) st)).log
          = st.log ++ [Event.request, Event.sleep PollInterval]
      ∧ (∀ fuel, pollLoop w (pollURL qrcodeKey) (fuel + 1) st
          = pollLoop w (pollURL qrcodeKey) fuel
              (sleepInterval (afterRequest w (pollURL qrcodeKey) st)))
      ∧ ((sleepInterval (afterRequest w (pollURL qrcodeKey) st)).now < PollTimeout →
          (pollStep w (pollURL qrcodeKey)
              (sleepInterval (afterRequest w (pollURL qrcodeKey) st))).state.requests
            = st.requests + 2
          ∧ st.log ++ [Event.request, Event.sleep PollInterval, Event.request]
            <+: (pollStep w (pollURL qrcodeKey)
              (sleepInterval (afterRequest w (pollURL qrcodeKey) st))).state.log)
      ∧ (¬ (sleepInterval (afterRequest w (pollURL qrcodeKey) st)).now < PollTimeout →
          pollStep w (pollURL qrcodeKey)
              (sleepInterval (afterRequest w (pollURL qrcodeKey) st))
            = Iter.done (none, some "轮询超时")
                (sleepInterval (afterRequest w (pollURL qrcodeKey) st))))
    ∧ (∀ k, isSuccess w (w.Get (pollURL qrcodeKey) k) = true →
        (∀ i, i < k → isTransportError (w.Get (pollURL qrcodeKey) i) = false
          ∧ isSuccess w (w.Get (pollURL qrcodeKey) i) = false
          ∧ isExpired w (w.Get (pollURL qrcodeKey) i) = false) →
        issueTime w (pollURL qrcodeKey) k < PollTimeout →
        ∀ fuel, k < fuel →
          ∃ info st, PollLoginStatus w qrcodeKey fuel = some ((some info, none), st)
            ∧ st.requests = k + 1)
    ∧ ((∃ fuel info st, PollLoginStatus w qrcodeKey fuel = some ((some info, none), st))
        ↔ ∃ k, isSuccess w (w.Get (pollURL qrcodeKey) k) = true
            ∧ (∀ i, i < k → isTransportError (w.Get (pollURL qrcodeKey) i) = false
                ∧ isSuccess w (w.Get (pollURL qrcodeKey) i) = false
                ∧ isExpired w (w.Get (pollURL qrcodeKey) i) = false)
            ∧ issueTime w (pollURL qrcodeKey) k < PollTimeout)
    ∧ (∀ fuel r st1, PollLoginStatus w qrcodeKey fuel = some (r, st1) →
        ((∃ info, r = (some info, none))
          ↔ ∃ i, i < st1.requests ∧ isSuccess w (w.Get (pollURL qrcodeKey) i) = true)) := by
  refine ⟨?_, ?_, ?_, ?_⟩
  · intro st s hnow hd hns hne
    obtain ⟨resp, hx, hu⟩ := decoded_eq_some w _ s hd
    have hstep := pollStep_pending w (pollURL qrcodeKey) st resp s hnow hx hu hns hne
    refine ⟨hstep, ?_, ?_, ?_, ?_, ?_⟩
    · simp [sleepInterval, afterRequest]
    · simp [sleepInterval, afterRequest]
    · intro fuel
      simp only [pollLoop, hstep]
    · intro hlt
      have := pollStep_issues_request w (pollURL qrcodeKey) _ hlt
      refine ⟨?_, ?_⟩
      · rw [this.1]; simp [sleepInterval, afterRequest]
      · simpa [sleepInterval, afterRequest] using this.2
    · intro hge
      exact pollStep_timeout w _ _ hge
  · intro k hk hearlier htime fuel hfuel
    obtain ⟨info, st, hrun, hreq, _⟩ :=
      pollLoop_returns_success w (pollURL qrcodeKey) k hk hearlier htime fuel hfuel
    exact ⟨info, st, hrun, hreq⟩
  · constructor
    · rintro ⟨fuel, info, st, hrun⟩
      obtain ⟨k, hk, hearlier, htime, _⟩ :=
        pollLoop_success_reached w (pollURL qrcodeKey) fuel 0 info none st hrun
          (fun i hi => absurd hi (Nat.not_lt_zero i))
      exact ⟨k, hk, hearlier, htime⟩
    · rintro ⟨k, hk, hearlier, htime⟩
      obtain ⟨info, st, hrun, _, _⟩ :=
        pollLoop_returns_success w (pollURL qrcodeKey) k hk hearlier htime (k + 1)
          (Nat.lt_succ_self k)
      exact ⟨k + 1, info, st, hrun⟩
  · intro fuel r st1 h
    exact pollLoop_success_iff w (pollURL qrcodeKey) fuel {} st1 r h
      (fun i hi => absurd hi (Nat.not_lt_zero i))

/-- Witness for C10: in the sample run that starts with an unlisted outer code, followed by
outer 0 with a non-zero inner code and then a confirmed login, the first pass goes round
after one request and one sleep, and the call returns a `LoginInfo` on the third request. -/
theorem PollLoginStatus_other_codes_keep_polling_witness :
    decoded otherCodesWorld (otherCodesWorld.Get (pollURL "k1") 0)
        = some { Code := -412, Message := "request was banned" }
    ∧ pollStep otherCodesWorld (pollURL "k1") {}
        = Iter.next { now := PollInterval, requests := 1,
                      log := [Event.request, Event.sleep PollInterval] }
    ∧ isSuccess otherCodesWorld (otherCodesWorld.Get (pollURL "k1") 2) = true
    ∧ issueTime otherCodesWorld (pollURL "k1") 2 < PollTimeout
    ∧ (∃ info st, PollLoginStatus otherCodesWorld "k1" 3 = some ((some info, none), st)
        ∧ st.requests = 2 + 1)
    ∧ (∃ fuel info st,
        PollLoginStatus otherCodesWorld "k1" fuel = some ((some info, none), st)) :=
  ⟨by decide,
    ((PollLoginStatus_other_codes_keep_polling otherCodesWorld "k1").1 {}
      { Code := -412, Message := "request was banned" } (by decide) (by decide) (by decide)
      (by decide)).1,
    by decide, by decide,
    (PollLoginStatus_other_codes_keep_polling otherCodesWorld "k1").2.1 2 (by decide)
      (by decide) (by decide) 3 (by decide),
    (PollLoginStatus_other_codes_keep_polling otherCodesWorld "k1").2.2.1.mpr
      ⟨2, by decide, by decide, by decide⟩⟩

/-! ## Timing out -/

/-- When every response arrives at once and decodes to codes that are neither a success nor
an expiry, request number `i` is issued at `i` poll intervals. -/
theorem issueTime_all_decoded (w : World) (url : String)
    (hall : ∀ i, (w.Get url i).elapsed = 0 ∧ (decoded w (w.Get url i)).isSome = true)
    (i : Nat) : issueTime w url i = i * PollInterval := by
  induction i with
  | zero => simp [issueTime]
  | succ i ih =>
    simp only [issueTime, passTime, ih, (hall i).1, (hall i).2]
    simp [Nat.succ_mul]

/-- Timeout on streams that always decode: when no response is a success, an expiry or a
transport error, every body decodes, and only the sleeps advance the clock, the loop returns
the timeout error after exactly 90 requests and 90 sleeps. -/
theorem PollLoginStatus_timeout_all_decoded (w : World) (qrcodeKey : String)
    (hall : ∀ i, (w.Get (pollURL qrcodeKey) i).elapsed = 0
      ∧ (decoded w (w.Get (pollURL qrcodeKey) i)).isSome = true)
    (hpending : ∀ i, isTransportError (w.Get (pollURL qrcodeKey) i) = false
      ∧ isSuccess w (w.Get (pollURL qrcodeKey) i) = false
      ∧ isExpired w (w.Get (pollURL qrcodeKey) i) = false)
    (fuel : Nat) (hfuel : 91 ≤ fuel) :
    ∃ st, PollLoginStatus w qrcodeKey fuel = some ((none, some "轮询超时"), st)
      ∧ st.requests = 90 ∧ st.now = PollTimeout
      ∧ st.log.count Event.request = 90 := by
  have htime := issueTime_all_decoded w (pollURL qrcodeKey) hall
  have hreach := pollLoop_reach w (pollURL qrcodeKey) 90 (fun i _ => hpending i)
    (fun i hi => by rw [htime i, PollInterval_eq, PollTimeout_eq]; omega) (fuel - 91 + 1)
  have hfuel2 : fuel = fuel - 91 + 1 + 90 := by omega
  have hnow : ¬ (issueState w (pollURL qrcodeKey) 90).now < PollTimeout := by
    show ¬ issueTime w (pollURL qrcodeKey) 90 < PollTimeout
    rw [htime 90, PollInterval_eq, PollTimeout_eq]; omega
  refine ⟨issueState w (pollURL qrcodeKey) 90, ?_, rfl, ?_, ?_⟩
  · unfold PollLoginStatus
    rw [hfuel2, hreach]
    simp only [pollLoop, pollStep_timeout w _ _ hnow]
  · show issueTime w (pollURL qrcodeKey) 90 = PollTimeout
    rw [htime 90, PollInterval_eq, PollTimeout_eq]
  · exact issueLog_count w _ 90

theorem undecodableWorld_Get (i : Nat) :
    undecodableWorld.Get (pollURL "k1") i = reply "<html>" [] := by
  have hurl : (pollURL "k1" = generateURL) = False := by
    simp only [eq_iff_iff, iff_false]; decide
  simp [undecodableWorld, scriptedWorld, hurl]

theorem oneUndecodableWorld_Get_zero :
    oneUndecodableWorld.Get (pollURL "k1") 0 = reply "<html>" [] := by
  decide

theorem oneUndecodableWorld_Get_succ (i : Nat) :
    oneUndecodableWorld.Get (pollURL "k1") (i + 1) = reply "waiting" [] := by
  have hurl : (pollURL "k1" = generateURL) = False := by
    simp only [eq_iff_iff, iff_false]; decide
  simp [oneUndecodableWorld, scriptedWorld, hurl]

theorem undecodableWorld_issueTime (i : Nat) :
    issueTime undecodableWorld (pollURL "k1") i = 0 := by
  induction i with
  | zero => rfl
  | succ i ih =>
    simp only [issueTime, ih, undecodableWorld_Get]
    decide

theorem oneUndecodableWorld_issueTime (i : Nat) :
    issueTime oneUndecodableWorld (pollURL "k1") (i + 1) = i * PollInterval := by
  induction i with
  | zero =>
    simp only [issueTime, oneUndecodableWorld_Get_zero]
    decide
  | succ i ih =>
    have hstep : issueTime oneUndecodableWorld (pollURL "k1") (i + 1 + 1)
        = issueTime oneUndecodableWorld (pollURL "k1") (i + 1)
          + passTime oneUndecodableWorld (oneUndecodableWorld.Get (pollURL "k1") (i + 1)) := rfl
    have hpass : passTime oneUndecodableWorld (reply "waiting" []) = PollInterval := by decide
    rw [hstep, ih, oneUndecodableWorld_Get_succ, hpass, Nat.succ_mul]

/-- C3, evaluated: a response whose body does not decode is followed by the next request
without a sleep. With only sleeps advancing the clock, a stream of undecodable bodies keeps
the loop requesting for any number of passes without ever returning, and one undecodable
body ahead of a stream of code 86101 makes the loop time out after 91 requests, not 90. -/
theorem PollLoginStatus_undecodable_skips_sleep :
    (∀ fuel, PollLoginStatus undecodableWorld "k1" fuel = none)
    ∧ (∀ fuel, pollLoop undecodableWorld (pollURL "k1") fuel {}
        = pollLoop undecodableWorld (pollURL "k1") 0
            { now := 0, requests := fuel,
              log := issueLog undecodableWorld (pollURL "k1") fuel })
    ∧ (∀ fuel, 92 ≤ fuel →
        ∃ st, PollLoginStatus oneUndecodableWorld "k1" fuel
            = some ((none, some "轮询超时"), st)
          ∧ st.requests = 91 ∧ st.log.count Event.request = 91) := by
  have hreach0 : ∀ fuel, pollLoop undecodableWorld (pollURL "k1") fuel {}
      = pollLoop undecodableWorld (pollURL "k1") 0
          (issueState undecodableWorld (pollURL "k1") fuel) := by
    intro fuel
    have := pollLoop_reach undecodableWorld (pollURL "k1") fuel
      (fun i _ => by rw [undecodableWorld_Get]; decide)
      (fun i _ => by rw [undecodableWorld_issueTime, PollTimeout_eq]; omega) 0
    simpa using this
  refine ⟨?_, ?_, ?_⟩
  · intro fuel
    unfold PollLoginStatus
    rw [hreach0 fuel]
    rfl
  · intro fuel
    rw [hreach0 fuel]
    simp only [issueState, undecodableWorld_issueTime]
  · intro fuel hfuel
    have htime : ∀ i, i < 91 → issueTime oneUndecodableWorld (pollURL "k1") i < PollTimeout := by
      intro i hi
      cases i with
      | zero => simp [issueTime, PollTimeout_eq]
      | succ j =>
        rw [oneUndecodableWorld_issueTime, PollInterval_eq, PollTimeout_eq]; omega
    have hearlier : ∀ i, i < 91 →
        isTransportError (oneUndecodableWorld.Get (pollURL "k1") i) = false
        ∧ isSuccess oneUndecodableWorld (oneUndecodableWorld.Get (pollURL "k1") i) = false
        ∧ isExpired oneUndecodableWorld (oneUndecodableWorld.Get (pollURL "k1") i) = false := by
      intro i _
      cases i with
      | zero => rw [oneUndecodableWorld_Get_zero]; decide
      | succ j => rw [oneUndecodableWorld_Get_succ]; decide
    have hreach := pollLoop_reach oneUndecodableWorld (pollURL "k1") 91 hearlier htime
      (fuel - 92 + 1)
    have hfuel2 : fuel = fuel - 92 + 1 + 91 := by omega
    have hnow : ¬ (issueState oneUndecodableWorld (pollURL "k1") 91).now < PollTimeout := by
      show ¬ issueTime oneUndecodableWorld (pollURL "k1") 91 < PollTimeout
      rw [oneUndecodableWorld_issueTime, PollInterval_eq, PollTimeout_eq]; omega
    refine ⟨issueState oneUndecodableWorld (pollURL "k1") 91, ?_, rfl, ?_⟩
    · unfold PollLoginStatus
      rw [hfuel2, hreach]
      simp only [pollLoop, pollStep_timeout _ _ _ hnow]
    · exact issueLog_count _ _ 91


end DanmakuRobot
